import Mathlib

/-! Shallow embedding of the `default_meta` MkDocs plugin
(`src/plugins/default_meta/__init__.py`).

A Python meta-tag dict `{'name': k, 'content': c}` or `{'property': k, 'content': c}`
is modelled as a `MetaTag` record; Python dict equality on these dicts concides with
structural equality of `MetaTag`.  The plugin instance state (`self.site_url`,
`self.keywords`) is a `PluginState` record threaded explicitly; the MkDocs lifecycle
guarantees `on_config` runs before any page hook, so `site_url` is modelled as the
string it holds after configuration.  `page.meta['meta']` is the page's list of
meta-tag records (an absent key behaves as the empty list, matching `setdefault`).
-/

namespace DefaultMeta

/-- Discriminator kind of a meta tag dict: Python key `'name'` or `'property'`. -/
inductive TagKind where
  | name : TagKind
  | property : TagKind
deriving DecidableEq

/-- One meta-tag record: `{'name'|'property': key, 'content': content}`. -/
structure MetaTag where
  kind : TagKind
  key : String
  content : String
deriving DecidableEq

/-- Plugin instance state after configuration: `self.site_url` and `self.keywords`. -/
structure PluginState where
  site_url : String
  keywords : List String
deriving DecidableEq

/-- The `LANGUAGES` class constant: filename stem to display name. -/
def LANGUAGES : List (String × String) :=
  [("cpp", "C++"), ("c", "C"), ("csharp", "C#"), ("css", "CSS"), ("dart", "Dart"),
   ("go", "Go"), ("html", "HTML"), ("java", "Java"), ("javascript", "JavaScript"),
   ("json", "JSON"), ("kotlin", "Kotlin"), ("markdown", "Markdown"),
   ("objective-c", "Objective-C"), ("php", "PHP"), ("python", "Python"),
   ("ruby", "Ruby"), ("rust", "Rust"), ("scala", "Scala"), ("shell", "Shell"),
   ("sql", "SQL"), ("swift", "Swift"), ("typescript", "TypeScript")]

/-- The `PAGE_TITLES` class constant: special stems to fixed titles. -/
def PAGE_TITLES : List (String × String) :=
  [("index", "Home"), ("about", "About"), ("contributing", "Contributing"),
   ("foundation", "Foundational Code Standards")]

/-- The `DEFAULT_KEYWORDS` class constant. -/
def DEFAULT_KEYWORDS : List String :=
  ["Coding Standards", "Programming Best Practices", "Coding Guidelines",
   "Software Development", "Code Quality", "Software Engineering Principles",
   "Code Review Standards", "Code Style", "Source Code formatting",
   "Programming Language Style", "Clean Code Principles", "Development Guidelines",
   "Best Coding Practices", "Coding Style Guides", "Software Craftsmanship",
   "Code Consistency", "GoatBytes.IO", "GoatStyles", "GoatBytes"]

/-- The `SITE_DESC` class constant (the Python adjacent string literals joined). -/
def SITE_DESC : String :=
  "GoatStyles is an authoritative resource dedicated to promoting best practices and consistency in coding across various programming languages. As a comprehensive style guide repository created by GoatBytes.IO, it aims to elevate code quality and readability for developers worldwide."

/-- Index of the last occurrence of `c` in `cs`, if any (Python `str.rfind`). -/
def lastIdxOf (cs : List Char) (c : Char) : Option Nat :=
  match cs with
  | [] => none
  | a :: rest =>
    match lastIdxOf rest c with
    | some i => some (i + 1)
    | none => if a = c then some 0 else none

/-- Python `os.path.splitext` (posix): split at the last dot after the last `/`,
unless every character between that `/` (or the start) and the dot is itself a
dot (leading dots of the basename never start an extension). -/
def splitext (p : String) : String × String :=
  let cs := p.data
  let sepIdx : Int := match lastIdxOf cs '/' with | none => -1 | some i => (i : Int)
  let dotIdx : Int := match lastIdxOf cs '.' with | none => -1 | some i => (i : Int)
  if sepIdx < dotIdx then
    let start : Nat := (sepIdx + 1).toNat
    let d : Nat := dotIdx.toNat
    if ((cs.drop start).take (d - start)).any (fun ch => ch ≠ '.') then
      (String.mk (cs.take d), String.mk (cs.drop d))
    else (p, "")
  else (p, "")

/-- Python `os.path.basename` (posix): everything after the last `/`. -/
def basename (p : String) : String :=
  let cs := p.data
  match lastIdxOf cs '/' with
  | none => p
  | some i => String.mk (cs.drop (i + 1))

/-- Python `str.capitalize` restricted to ASCII: first character upper-cased,
the rest lower-cased. -/
def capitalize (s : String) : String :=
  match s.data with
  | [] => ""
  | c :: rest => String.mk (c.toUpper :: rest.map Char.toLower)

/-- Tests whether the first list starts the second one (pattern match at the head). -/
def leadsList : List Char → List Char → Bool
  | [], _ => true
  | _ :: _, [] => false
  | p :: ps, c :: cs => p = c && leadsList ps cs

/-- Python `str.replace`: replace every non-overlapping occurrence of `pat`
(scanning left to right) by `rep`.  Structural recursion on a fuel bounded by
the string length, so the definition evaluates by `rfl`/`decide`. -/
def pyReplaceAux (fuel : Nat) (cs pat rep : List Char) : List Char :=
  match fuel, cs with
  | 0, cs => cs
  | _, [] => []
  | fuel + 1, c :: rest =>
    if pat ≠ [] ∧ leadsList pat (c :: rest) then
      rep ++ pyReplaceAux fuel ((c :: rest).drop pat.length) pat rep
    else
      c :: pyReplaceAux fuel rest pat rep

/-- Python `str.replace` on strings (for a non-empty pattern). -/
def pyReplace (s pat rep : String) : String :=
  String.mk (pyReplaceAux s.data.length s.data pat.data rep.data)

/-- The `on_config` hook: store `config.get('site_url', 'https://styles.goatbytes.io')`
and reset the keyword accumulator to a copy of `DEFAULT_KEYWORDS`. -/
def on_config (cfg_site_url : Option String) (_s : PluginState) : PluginState :=
  { site_url := cfg_site_url.getD "https://styles.goatbytes.io",
    keywords := DEFAULT_KEYWORDS }

/-- The `format_language_name` method: language display name for a stem, else
the capitalized stem. -/
def format_language_name (filename : String) : String :=
  let base := (splitext filename).1
  (List.lookup base LANGUAGES).getD (capitalize base)

/-- The `get_language_keywords` method. -/
def get_language_keywords (language : String) : List String :=
  [language ++ " Style Guide", language ++ " Syntax Rules",
   language ++ " Coding Conventions"]

/-- The `format_page_title_and_description` method: returns the title/description
pair and the updated plugin state (the language branch extends `self.keywords`). -/
def format_page_title_and_description (s : PluginState) (filename : String) :
    (String × String) × PluginState :=
  let base := (splitext filename).1
  match List.lookup base PAGE_TITLES with
  | some title => ((title, SITE_DESC), s)
  | none =>
    match List.lookup base LANGUAGES with
    | some lang =>
      ((lang ++ " Code Style Guide",
        "Explore the official " ++ lang ++
          " coding conventions and best practices used by GoatBytes.IO."),
       { s with keywords := s.keywords ++ get_language_keywords lang })
    | none => (("GoatStyles Documentation", SITE_DESC), s)

/-- The `generate_default_meta` method: the fixed ordered list of default tags,
after `image.replace("//assets", "/assets")`. -/
def generate_default_meta (s : PluginState) (title description image : String) :
    List MetaTag :=
  let image := pyReplace image "//assets" "/assets"
  [⟨TagKind.name, "description", description⟩,
   ⟨TagKind.name, "keywords", String.intercalate ", " s.keywords⟩,
   ⟨TagKind.property, "og:type", "website"⟩,
   ⟨TagKind.property, "og:url", s.site_url⟩,
   ⟨TagKind.property, "og:site_name", "GoatStyles"⟩,
   ⟨TagKind.property, "og:title", title⟩,
   ⟨TagKind.property, "og:description", description⟩,
   ⟨TagKind.property, "og:image", image⟩,
   ⟨TagKind.property, "og:image:type", "image/png"⟩,
   ⟨TagKind.property, "og:image:width", "1200"⟩,
   ⟨TagKind.property, "og:image:height", "620"⟩,
   ⟨TagKind.name, "twitter:card", "summary_large_image"⟩,
   ⟨TagKind.name, "twitter:title", title⟩,
   ⟨TagKind.name, "twitter:description", description⟩,
   ⟨TagKind.name, "twitter:image", image⟩]

/-- The `on_page_markdown` hook.  Inputs: plugin state, the page markdown, the
page's `file.src_path`, and the page's current `meta` list (`page.meta['meta']`,
empty when absent).  Output: the returned markdown, the new `meta` list, and the
new plugin state.  `extend([tag for tag in defaults if tag not in meta])` appends
exactly the default tags not already present under dict equality. -/
def on_page_markdown (s : PluginState) (markdown : String) (src_path : String)
    (pageMeta : List MetaTag) : String × List MetaTag × PluginState :=
  let default_image := s.site_url ++ "/assets/img/goatstyles.png"
  let r := format_page_title_and_description s (basename src_path)
  let page_title := r.1.1
  let custom_description := r.1.2
  let s' := r.2
  let defaults := generate_default_meta s' page_title custom_description default_image
  (markdown, pageMeta ++ defaults.filter (fun t => !(decide (t ∈ pageMeta))), s')

/-- The spec's refreshable key set
{description, og:title, og:description, twitter:title, twitter:description}. -/
def refreshable_keys : List String :=
  ["description", "og:title", "og:description", "twitter:title",
   "twitter:description"]

/-- The default-tag list a single `on_page_markdown` call computes for a page,
before the merge into `page.meta['meta']`. -/
def page_defaults (s : PluginState) (src_path : String) : List MetaTag :=
  let r := format_page_title_and_description s (basename src_path)
  generate_default_meta r.2 r.1.1 r.1.2 (s.site_url ++ "/assets/img/goatstyles.png")

/-- The plugin state after on_config when the host config has no `site_url`. -/
def configured_state : PluginState := on_config none ⟨"", []⟩

theorem on_page_markdown_eq (s : PluginState) (md p : String) (m : List MetaTag) :
    on_page_markdown s md p m =
      (md, m ++ (page_defaults s p).filter (fun t => !(decide (t ∈ m))),
       (format_page_title_and_description s (basename p)).2) := rfl

theorem format_fst_state_indep (s s' : PluginState) (f : String) :
    (format_page_title_and_description s f).1 =
      (format_page_title_and_description s' f).1 := by
  unfold format_page_title_and_description
  cases h1 : List.lookup (splitext f).1 PAGE_TITLES <;>
    cases h2 : List.lookup (splitext f).1 LANGUAGES <;> simp [h1, h2]

theorem format_site_url (s : PluginState) (f : String) :
    (format_page_title_and_description s f).2.site_url = s.site_url := by
  unfold format_page_title_and_description
  cases h1 : List.lookup (splitext f).1 PAGE_TITLES <;>
    cases h2 : List.lookup (splitext f).1 LANGUAGES <;> simp [h1, h2]

theorem mem_hook_result_of_mem_defaults (s : PluginState) (md p : String)
    (m : List MetaTag) (t : MetaTag) (ht : t ∈ page_defaults s p) :
    t ∈ (on_page_markdown s md p m).2.1 := by
  rw [on_page_markdown_eq]
  by_cases hm : t ∈ m
  · exact List.mem_append.mpr (Or.inl hm)
  · exact List.mem_append.mpr (Or.inr (List.mem_filter.mpr ⟨ht, by simp [hm]⟩))

theorem refresh_mem_gen (sa sb : PluginState) (title desc ia ib : String)
    (t : MetaTag) (ht : t ∈ generate_default_meta sa title desc ia)
    (hk : t.key ∈ refreshable_keys) :
    t ∈ generate_default_meta sb title desc ib := by
  simp only [generate_default_meta, List.mem_cons, List.not_mem_nil, or_false] at ht ⊢
  rcases ht with rfl | rfl | rfl | rfl | rfl | rfl | rfl | rfl | rfl | rfl | rfl |
    rfl | rfl | rfl | rfl <;> simp_all [refreshable_keys]

theorem refresh_mem_defaults_state_indep (sa sb : PluginState) (p : String)
    (t : MetaTag) (ht : t ∈ page_defaults sa p) (hk : t.key ∈ refreshable_keys) :
    t ∈ page_defaults sb p := by
  simp only [page_defaults] at ht ⊢
  have hfst := format_fst_state_indep sa sb (basename p)
  have h1 : (format_page_title_and_description sa (basename p)).1.1 =
      (format_page_title_and_description sb (basename p)).1.1 := by rw [hfst]
  have h2 : (format_page_title_and_description sa (basename p)).1.2 =
      (format_page_title_and_description sb (basename p)).1.2 := by rw [hfst]
  rw [h1, h2] at ht
  exact refresh_mem_gen _ _ _ _ _ _ t ht hk

theorem defaults_map_key (s : PluginState) (title desc image : String) :
    (generate_default_meta s title desc image).map MetaTag.key =
      ["description", "keywords", "og:type", "og:url", "og:site_name", "og:title",
       "og:description", "og:image", "og:image:type", "og:image:width",
       "og:image:height", "twitter:card", "twitter:title", "twitter:description",
       "twitter:image"] := rfl

theorem page_defaults_nodup (s : PluginState) (p : String) :
    (page_defaults s p).Nodup := by
  have h : ((page_defaults s p).map MetaTag.key).Nodup := by
    simp only [page_defaults, defaults_map_key]
    decide
  exact h.of_map

/-- C9: `on_page_markdown` returns the input markdown string unchanged, and the
only plugin-state field it can change is the keyword accumulator: `site_url`
is preserved (the page's `meta` list is the separately returned component). -/
theorem C9_markdown_unchanged (s : PluginState) (md p : String) (m : List MetaTag) :
    (on_page_markdown s md p m).1 = md ∧
    (on_page_markdown s md p m).2.2.site_url = s.site_url :=
  ⟨rfl, by rw [on_page_markdown_eq]; exact format_site_url s (basename p)⟩

/-- C10: the per-page hook never removes, reorders or mutates the pre-existing
meta records: the first `m.length` entries of the result are exactly `m`; what
follows is exactly the default tags not already present verbatim, a sublist of
the default list (so in its fixed relative order), none of which occurs in `m`. -/
theorem C10_hook_preserves_and_appends (s : PluginState) (md p : String)
    (m : List MetaTag) :
    ((on_page_markdown s md p m).2.1).take m.length = m ∧
    ((on_page_markdown s md p m).2.1).drop m.length =
      (page_defaults s p).filter (fun t => !(decide (t ∈ m))) ∧
    List.Sublist (((on_page_markdown s md p m).2.1).drop m.length)
      (page_defaults s p) ∧
    ∀ t ∈ ((on_page_markdown s md p m).2.1).drop m.length, t ∉ m := by
  rw [on_page_markdown_eq]
  refine ⟨List.take_left m _, List.drop_left m _, ?_, ?_⟩
  · rw [List.drop_left]
    exact List.filter_sublist _
  · rw [List.drop_left]
    intro t ht
    have := (List.mem_filter.mp ht).2
    simpa using this

/-- C1 (counterexample): on a page whose metadata already holds a tag with the
refreshable key "description" but author content "custom", the claim demands
that the hook overwrite that entry's content in place and append no second
description tag; the code leaves the entry untouched at position 0 and appends
the default description tag, producing two tags with that key. -/
theorem C1_counterexample :
    ((on_page_markdown ⟨"https://styles.goatbytes.io", ["k"]⟩ "body" "about.md"
        [⟨TagKind.name, "description", "custom"⟩]).2.1).head? =
      some ⟨TagKind.name, "description", "custom"⟩ ∧
    List.countP (fun t => decide (t.key = "description"))
      ((on_page_markdown ⟨"https://styles.goatbytes.io", ["k"]⟩ "body" "about.md"
        [⟨TagKind.name, "description", "custom"⟩]).2.1) = 2 := by
  constructor
  · rfl
  · decide

/-- C1 (amended): the hook never overwrites any existing tag's content.  It
appends each default tag exactly when no existing tag equals it field-for-field
(dict equality): the result is the old list followed by the filtered defaults,
the old entries stay verbatim in their positions, a default already present
verbatim is not duplicated, and a default not present verbatim is appended once
— even when an existing tag shares its (refreshable or not) key. -/
theorem C1_amended_merge_is_append_if_absent (s : PluginState) (md p : String)
    (m : List MetaTag) :
    (on_page_markdown s md p m).2.1 =
      m ++ (page_defaults s p).filter (fun t => !(decide (t ∈ m))) ∧
    ((on_page_markdown s md p m).2.1).take m.length = m ∧
    (∀ t ∈ page_defaults s p, t ∈ m →
      List.count t ((on_page_markdown s md p m).2.1) = List.count t m) ∧
    (∀ t ∈ page_defaults s p, t ∉ m →
      List.count t ((on_page_markdown s md p m).2.1) = List.count t m + 1) := by
  rw [on_page_markdown_eq]
  refine ⟨rfl, List.take_left m _, ?_, ?_⟩
  · intro t _ hm
    rw [List.count_append]
    have hz : List.count t ((page_defaults s p).filter
        (fun t => !(decide (t ∈ m)))) = 0 := by
      rw [List.count_eq_zero]
      intro hc
      have := (List.mem_filter.mp hc).2
      simp only [Bool.not_eq_true', decide_eq_false_iff_not] at this
      exact this hm
    omega
  · intro t ht hm
    rw [List.count_append]
    have h1 : List.count t ((page_defaults s p).filter
        (fun t => !(decide (t ∈ m)))) = List.count t (page_defaults s p) :=
      List.count_filter (by simpa using hm)
    have h2 : List.count t (page_defaults s p) = 1 :=
      List.count_eq_one_of_mem (page_defaults_nodup s p) ht
    omega

/-- C2 (counterexample): the claimed invariant "at most one record per key after
processing" fails: a page pre-populated with an og:title tag whose content
differs from the default ends up with two og:title records, because the code
deduplicates by whole-record equality, not by key. -/
theorem C2_counterexample :
    ¬ (List.countP (fun t => decide (t.key = "og:title"))
        ((on_page_markdown ⟨"https://styles.goatbytes.io", ["k"]⟩ "body" "about.md"
          [⟨TagKind.property, "og:title", "My Custom Title"⟩]).2.1) ≤ 1) := by
  decide

/-- C2 (amended): after processing a page whose metadata list was empty
beforehand, at most one record per discriminator key exists (the default list
has pairwise distinct keys); in general existing records are preserved and a
pre-existing record sharing a key with a default but differing in content is
kept alongside the appended default, so the per-key uniqueness can fail. -/
theorem C2_amended_nodup_keys_from_empty (s : PluginState) (md p : String) :
    (((on_page_markdown s md p []).2.1).map MetaTag.key).Nodup := by
  rw [on_page_markdown_eq]
  have h : (page_defaults s p).filter
      (fun t => !(decide (t ∈ ([] : List MetaTag)))) = page_defaults s p :=
    List.filter_eq_self.mpr (fun a _ => by simp)
  rw [List.nil_append, h]
  simp only [page_defaults, defaults_map_key]
  decide

/-- C3: running the per-page hook twice with identical inputs adds no further
tag with a refreshable key (the second run's refreshable defaults are already
present verbatim, since title and description depend only on the filename), and
never decreases the count of non-refreshable-key tags present before the first
run (the hook only appends). -/
theorem C3_second_run_idempotent_on_refreshables (s : PluginState)
    (md p : String) (m : List MetaTag) :
    List.countP (fun t => decide (t.key ∈ refreshable_keys))
        ((on_page_markdown (on_page_markdown s md p m).2.2 md p
          (on_page_markdown s md p m).2.1).2.1) =
      List.countP (fun t => decide (t.key ∈ refreshable_keys))
        ((on_page_markdown s md p m).2.1) ∧
    List.countP (fun t => !(decide (t.key ∈ refreshable_keys)))
        ((on_page_markdown (on_page_markdown s md p m).2.2 md p
          (on_page_markdown s md p m).2.1).2.1) ≥
      List.countP (fun t => !(decide (t.key ∈ refreshable_keys))) m := by
  set s1 := (on_page_markdown s md p m).2.2 with hs1
  set m1 := (on_page_markdown s md p m).2.1 with hm1
  constructor
  · rw [on_page_markdown_eq s1 md p m1, List.countP_append]
    have hzero : List.countP (fun t => decide (t.key ∈ refreshable_keys))
        ((page_defaults s1 p).filter (fun t => !(decide (t ∈ m1)))) = 0 := by
      rw [List.countP_eq_zero]
      intro t htf hkey
      obtain ⟨htd, hnm⟩ := List.mem_filter.mp htf
      simp only [Bool.not_eq_true', decide_eq_false_iff_not] at hnm
      have hkey' : t.key ∈ refreshable_keys := of_decide_eq_true hkey
      have hd : t ∈ page_defaults s p :=
        refresh_mem_defaults_state_indep s1 s p t htd hkey'
      exact hnm (mem_hook_result_of_mem_defaults s md p m t hd)
    omega
  · rw [on_page_markdown_eq s1 md p m1, List.countP_append,
      hm1, on_page_markdown_eq s md p m, List.countP_append]
    omega

/-- C4 (counterexample): the builder does not collapse an arbitrary duplicated
path separator: an image URL containing "//img" is emitted unchanged, still
holding the doubled slash, instead of the collapsed "/img" form the claim
demands (the code only rewrites the literal substring "//assets"). -/
theorem C4_counterexample :
    ((generate_default_meta ⟨"u", ["k"]⟩ "t" "d"
        "https://styles.goatbytes.io//img/x.png").find?
      (fun t => t.key == "og:image")) =
      some ⟨TagKind.property, "og:image", "https://styles.goatbytes.io//img/x.png"⟩ ∧
    "https://styles.goatbytes.io//img/x.png" ≠
      "https://styles.goatbytes.io/img/x.png" := by
  constructor
  · rfl
  · decide

/-- C4 (amended): the builder's normalization replaces exactly the occurrences
of the substring "//assets" with "/assets" (other duplicated separators are
left alone); in the claimed scenario — base URL https://styles.goatbytes.io and
path /assets/img/goatstyles.png — the emitted og:image content equals
https://styles.goatbytes.io/assets/img/goatstyles.png with the scheme's double
slash intact. -/
theorem C4_amended_image_normalization (s : PluginState) (title desc image : String) :
    ((generate_default_meta s title desc image).find?
        (fun t => t.key == "og:image")) =
      some ⟨TagKind.property, "og:image", pyReplace image "//assets" "/assets"⟩ ∧
    (((on_page_markdown configured_state "body" "python.md" []).2.1).find?
        (fun t => t.key == "og:image")) =
      some ⟨TagKind.property, "og:image",
        "https://styles.goatbytes.io/assets/img/goatstyles.png"⟩ := by
  constructor
  · rfl
  · decide

theorem format_override_branch (s : PluginState) (f title : String)
    (h : List.lookup ((splitext f).1) PAGE_TITLES = some title) :
    format_page_title_and_description s f = ((title, SITE_DESC), s) := by
  unfold format_page_title_and_description
  simp only [h]

theorem format_lang_branch (s : PluginState) (f lang : String)
    (h1 : List.lookup ((splitext f).1) PAGE_TITLES = none)
    (h2 : List.lookup ((splitext f).1) LANGUAGES = some lang) :
    format_page_title_and_description s f =
      ((lang ++ " Code Style Guide",
        "Explore the official " ++ lang ++
          " coding conventions and best practices used by GoatBytes.IO."),
       { s with keywords := s.keywords ++ get_language_keywords lang }) := by
  unfold format_page_title_and_description
  simp only [h1, h2]

theorem format_fallback_branch (s : PluginState) (f : String)
    (h1 : List.lookup ((splitext f).1) PAGE_TITLES = none)
    (h2 : List.lookup ((splitext f).1) LANGUAGES = none) :
    format_page_title_and_description s f =
      (("GoatStyles Documentation", SITE_DESC), s) := by
  unfold format_page_title_and_description
  simp only [h1, h2]

/-- C5: for a filename whose stem is a language-table key (and not an override
key), the derived title is "{DisplayName} Code Style Guide", the description
starts with "Explore the official {DisplayName} coding conventions", exactly
three keywords ending in " Style Guide", " Syntax Rules" and
" Coding Conventions" are appended to the accumulator, and the page's emitted
tags include og:type "website" and twitter:card "summary_large_image". -/
theorem C5_language_page (s : PluginState) (md path : String) (m : List MetaTag)
    (lang : String)
    (h1 : List.lookup ((splitext (basename path)).1) PAGE_TITLES = none)
    (h2 : List.lookup ((splitext (basename path)).1) LANGUAGES = some lang) :
    (format_page_title_and_description s (basename path)).1.1 =
      lang ++ " Code Style Guide" ∧
    (format_page_title_and_description s (basename path)).1.2 =
      "Explore the official " ++ lang ++
        " coding conventions and best practices used by GoatBytes.IO." ∧
    (format_page_title_and_description s (basename path)).2.keywords =
      s.keywords ++ [lang ++ " Style Guide", lang ++ " Syntax Rules",
        lang ++ " Coding Conventions"] ∧
    (⟨TagKind.property, "og:type", "website"⟩ : MetaTag) ∈
      (on_page_markdown s md path m).2.1 ∧
    (⟨TagKind.name, "twitter:card", "summary_large_image"⟩ : MetaTag) ∈
      (on_page_markdown s md path m).2.1 := by
  have hf := format_lang_branch s (basename path) lang h1 h2
  refine ⟨by rw [hf], by rw [hf], by rw [hf]; rfl, ?_, ?_⟩
  · refine mem_hook_result_of_mem_defaults s md path m _ ?_
    simp [page_defaults, generate_default_meta]
  · refine mem_hook_result_of_mem_defaults s md path m _ ?_
    simp [page_defaults, generate_default_meta]

/-- C5 witness: the theorem applied to the page "python.md" in the state left
by an on_config call with no configured site_url. -/
theorem C5_language_page_witness :
    (format_page_title_and_description configured_state
        (basename "python.md")).1.1 = "Python" ++ " Code Style Guide" ∧
    (format_page_title_and_description configured_state
        (basename "python.md")).1.2 =
      "Explore the official " ++ "Python" ++
        " coding conventions and best practices used by GoatBytes.IO." ∧
    (format_page_title_and_description configured_state
        (basename "python.md")).2.keywords =
      configured_state.keywords ++ ["Python" ++ " Style Guide",
        "Python" ++ " Syntax Rules", "Python" ++ " Coding Conventions"] ∧
    (⟨TagKind.property, "og:type", "website"⟩ : MetaTag) ∈
      (on_page_markdown configured_state "body" "python.md" []).2.1 ∧
    (⟨TagKind.name, "twitter:card", "summary_large_image"⟩ : MetaTag) ∈
      (on_page_markdown configured_state "body" "python.md" []).2.1 :=
  C5_language_page configured_state "body" "python.md" [] "Python"
    (by decide) (by decide)

/-- C6: for a filename whose stem is a page-title override key, the returned
pair is the override title with the fixed SITE_DESC verbatim, and the state is
unchanged; the override branch is taken regardless of language-table
membership (no hypothesis about the language table is needed). -/
theorem C6_override_page (s : PluginState) (f title : String)
    (h : List.lookup ((splitext f).1) PAGE_TITLES = some title) :
    format_page_title_and_description s f = ((title, SITE_DESC), s) :=
  format_override_branch s f title h

/-- C6 witness: the theorem applied to the page "about.md". -/
theorem C6_override_page_witness :
    format_page_title_and_description configured_state "about.md" =
      (("About", SITE_DESC), configured_state) :=
  C6_override_page configured_state "about.md" "About" (by decide)

/-- C7: on_config resets the keyword accumulator to exactly the default list
(length and order), whatever the prior state; a second on_config changes
nothing further; and a reset after page processing again yields exactly the
default list, not a doubled or extended one. -/
theorem C7_config_resets_keywords (cfg : Option String) (s : PluginState)
    (md path : String) (m : List MetaTag) :
    (on_config cfg s).keywords = DEFAULT_KEYWORDS ∧
    on_config cfg (on_config cfg s) = on_config cfg s ∧
    (on_config cfg
        (on_page_markdown (on_config cfg s) md path m).2.2).keywords =
      DEFAULT_KEYWORDS :=
  ⟨rfl, rfl, rfl⟩

/-- C8: a filename whose stem is in neither table yields the generic fallback
title "GoatStyles Documentation" with the fixed site description and leaves the
plugin state (hence the keyword accumulator) untouched; the language-name
formatter degrades to capitalizing the raw stem, and an empty filename yields
the empty string; every branch is total on arbitrary string input. -/
theorem C8_fallback_page (s : PluginState) (f : String)
    (h1 : List.lookup ((splitext f).1) PAGE_TITLES = none)
    (h2 : List.lookup ((splitext f).1) LANGUAGES = none) :
    format_page_title_and_description s f =
      (("GoatStyles Documentation", SITE_DESC), s) ∧
    format_language_name f = capitalize ((splitext f).1) ∧
    format_language_name "" = "" ∧
    (splitext "").1 = "" := by
  refine ⟨format_fallback_branch s f h1 h2, ?_, rfl, rfl⟩
  unfold format_language_name
  simp only [h2, Option.getD_none]

/-- C8 witness: the theorem applied to the page "unknown-lang.md". -/
theorem C8_fallback_page_witness :
    format_page_title_and_description configured_state "unknown-lang.md" =
      (("GoatStyles Documentation", SITE_DESC), configured_state) ∧
    format_language_name "unknown-lang.md" =
      capitalize ((splitext "unknown-lang.md").1) ∧
    format_language_name "" = "" ∧
    (splitext "").1 = "" :=
  C8_fallback_page configured_state "unknown-lang.md" (by decide) (by decide)

end DefaultMeta
